import Mathlib

/-!
Shallow embedding of the issue-hierarchy resolution and report aggregation
engine of the lasso-issues repository (src/lasso/issues/issues/issues.py,
src/lasso/issues/issues/utils.py, src/lasso/issues/github.py), together with
theorems settling the specification claims about it.

Modelling conventions:
* an Issue carries the fields the engine reads: `number`, `title`,
  `html_url`, `state`, and its labels as the list of label names (the Python
  helpers get_labels_list/get_label_name normalize label objects and dicts
  to their name strings; we embed the already-normalized name list);
* Python dicts are embedded as insertion-ordered association lists; `dUpd`
  is dict assignment/update (update the entry in place if the key exists,
  append a new entry otherwise), `dGet` is lookup, `isKey` the `in` test;
* Python sets are embedded as `Finset`;
* the GitHub fetches `get_sub_issues`/`get_parent_issue` close over the
  connection, owner and repository name, so the resolver receives them as
  functions of the issue number; a sub-issue JSON object is represented by
  its optional `number` field, a parent JSON object by `ParentData`;
* the markdown builder is external; a report is embedded as the ordered
  list of table rows (one structure per row holding the emitted cell
  strings) plus the header/section flags the generator decides on.
-/

namespace LassoIssues

/-- Read-only projection of a tracker issue, with labels as their names. -/
structure Issue where
  number : Nat
  title : String
  html_url : String
  state : String
  labels : List String
deriving DecidableEq

/-- Parent-issue JSON payload as used by the resolver: only its `number`
field is read (`parent_data.get("number")`); a missing field is `none`. -/
structure ParentData where
  number : Option Nat
deriving DecidableEq

/-- Python dict assignment `m[k] = f(m.get(k))`: update the first entry with
key `k` in place, or append a new entry at the end (insertion order). -/
def dUpd {α β : Type} [DecidableEq α] (k : α) (f : Option β → β) : List (α × β) → List (α × β)
  | [] => [(k, f none)]
  | (k1, v1) :: rest => if k1 = k then (k1, f (some v1)) :: rest else (k1, v1) :: dUpd k f rest

/-- Python dict lookup `m.get(k)`. -/
def dGet {α β : Type} [DecidableEq α] (m : List (α × β)) (k : α) : Option β :=
  (m.find? (fun p => decide (p.1 = k))).map (fun p => p.2)

/-- Python dict membership `k in m`. -/
def isKey {α β : Type} [DecidableEq α] (m : List (α × β)) (k : α) : Bool :=
  m.any (fun p => decide (p.1 = k))

/-! ### utils.py -/

/-- `ISSUE_TYPES` from utils.py. -/
def ISSUE_TYPES : List String := ["bug", "enhancement", "requirement", "theme", "task"]

/-- `TOP_PRIORITIES` from utils.py. -/
def TOP_PRIORITIES : List String := ["p.must-have", "s.high", "s.critical"]

/-- `get_issue_type`: the first label whose name is in `ISSUE_TYPES`;
the Python function falls off the loop and returns `None` when no label
matches. -/
def get_issue_type (issue : Issue) : Option String :=
  issue.labels.find? (fun l => decide (l ∈ ISSUE_TYPES))

/-- The `get_issue_type(issue) or "unknown"` coercion every report call
site applies (all recognized type names are non-empty strings, so Python
`or` is exactly the `None` default). -/
def derivedIssueType (issue : Issue) : String :=
  (get_issue_type issue).getD "unknown"

/-- The label test of `get_issue_priority`: Python `"p." in label_name or
"s." in label_name`, i.e. substring containment. -/
def prioLabel (l : String) : Bool :=
  decide ("p.".toList <:+: l.toList) || decide ("s.".toList <:+: l.toList)

/-- `get_issue_priority`: the first label containing `"p."` or `"s."` as a
substring, else the sentinel `"unknown"`. -/
def get_issue_priority (short_issue : Issue) : String :=
  match short_issue.labels.find? prioLabel with
  | some l => l
  | none => "unknown"

/-- Modelled from the spec: the spec reads `priority` as a "string label
matching pattern `p.*` or `s.*`", i.e. a label that *begins with* `"p."`
or `"s."`.  Stated here only to compare the spec's reading with the
source's substring test. -/
def beginsWith (s pre : String) : Bool :=
  decide (s.toList.take pre.toList.length = pre.toList)

/-- Modelled from the spec: a label matching the spec's priority pattern
`p.*` or `s.*` (prefix reading). -/
def matchesPriorityPattern (l : String) : Bool :=
  beginsWith l "p." || beginsWith l "s."

/-! ### github.py -/

/-- Outcome of one HTTP fetch as seen by github.py: a 200 response with a
parsed JSON body, a 404, any other status code, or an exception raised
during the request or while parsing the body. -/
inductive ApiResponse (α : Type) where
  | ok (body : α)
  | notFound
  | otherStatus (code : Nat)
  | raised
deriving DecidableEq

/-- `get_sub_issues`: the parsed body on 200, and `[]` on 404, on any other
status, and on any exception (the `try/except` swallows everything). -/
def get_sub_issues (r : ApiResponse (List (Option Nat))) : List (Option Nat) :=
  match r with
  | .ok body => body
  | .notFound => []
  | .otherStatus _ => []
  | .raised => []

/-- `get_parent_issue`: the parsed body on 200, and `None` on 404, on any
other status, and on any exception. -/
def get_parent_issue (r : ApiResponse ParentData) : Option ParentData :=
  match r with
  | .ok body => some body
  | .notFound => none
  | .otherStatus _ => none
  | .raised => none

/-! ### build_parent_child_map (issues.py lines 72-127) -/

/-- The inner filter of the forward pass: keep each reported sub-issue
number that is truthy (`if child_num`) and present in the input list's
index (`child_num in issue_map`). -/
def collectChildren (nums : List Nat) (subs : List (Option Nat)) : List Nat :=
  subs.filterMap (fun o =>
    match o with
    | some n => if n ≠ 0 ∧ n ∈ nums then some n else none
    | none => none)

/-- One forward-pass iteration: fetch the issue's sub-issues, collect the
in-scope children, and if any were found record them under this issue and
add them to the child set. -/
def forwardStep (nums : List Nat) (fetchSub : Nat → List (Option Nat))
    (acc : List (Nat × List Nat) × Finset Nat) (issue : Issue) :
    List (Nat × List Nat) × Finset Nat :=
  let children := collectChildren nums (fetchSub issue.number)
  if children = [] then acc
  else (dUpd issue.number (fun _ => children) acc.1, acc.2 ∪ children.toFinset)

/-- One backward-pass iteration: skip issues already known to be parents;
otherwise fetch the parent, and when it reports a truthy number that is
*not* in the input list's index, record the fetched parent, add the child
to the child set, and append the child under the parent's number. -/
def backwardStep (nums : List Nat) (fetchParent : Nat → Option ParentData)
    (acc : List (Nat × List Nat) × Finset Nat × List (Nat × ParentData)) (issue : Issue) :
    List (Nat × List Nat) × Finset Nat × List (Nat × ParentData) :=
  if isKey acc.1 issue.number then acc
  else
    match fetchParent issue.number with
    | none => acc
    | some parent_data =>
      match parent_data.number with
      | none => acc
      | some parent_num =>
        if parent_num ≠ 0 ∧ parent_num ∉ nums then
          (dUpd parent_num (fun o => (o.getD []) ++ [issue.number]) acc.1,
           insert issue.number acc.2.1,
           dUpd parent_num (fun _ => parent_data) acc.2.2)
        else acc

/-- `build_parent_child_map(gh, org, repo_name, issues_list, fetch_parents)`:
the GitHub connection, owner and repository are folded into the two fetch
functions.  Returns `(parent_to_children, child_issues, fetched_parents)`.
The Python parameter `fetch_parents` defaults to `False`; callers relying
on the default are embedded passing `false` explicitly. -/
def build_parent_child_map (fetchSub : Nat → List (Option Nat))
    (fetchParent : Nat → Option ParentData) (issues_list : List Issue)
    (fetch_parents : Bool) :
    List (Nat × List Nat) × Finset Nat × List (Nat × ParentData) :=
  let nums := issues_list.map Issue.number
  let fwd := issues_list.foldl (forwardStep nums fetchSub) ([], ∅)
  if fetch_parents then
    issues_list.foldl (backwardStep nums fetchParent) (fwd.1, fwd.2, [])
  else
    (fwd.1, fwd.2, [])

/-! ### Report rows -/

/-- `next((i for i in issues if i.number == n), None)`. -/
def findIssue (issues : List Issue) (n : Nat) : Option Issue :=
  issues.find? (fun i => decide (i.number = n))

/-- Top-level link cell: `f"[{repo_name}#{number}]({html_url}) - {title}"`. -/
def parentLink (repo_name : String) (i : Issue) : String :=
  "[" ++ (repo_name ++ ("#" ++ (toString i.number ++ ("](" ++ (i.html_url ++ (") - " ++ i.title))))))

/-- Indented child link cell: `f"  ↳ [{repo_name}#{number}]({html_url}) - {title}"`. -/
def childLink (repo_name : String) (i : Issue) : String :=
  "  ↳ " ++ parentLink repo_name i

/-- One emitted row of a planning table: the five cell strings
`[Issue, Type, Priority / Bug Severity, Status, On Deck]`. -/
structure Row where
  link : String
  rtype : String
  priority : String
  status : String
  ondeck : String
deriving DecidableEq

/-- The on-deck cell: `"X"` when the priority is in `TOP_PRIORITIES`,
else the empty string. -/
def ondeckOf (priority : String) : String :=
  if priority ∈ TOP_PRIORITIES then "X" else ""

/-- Assemble one planning row for an issue from its link cell and the
status string the generator chose for it. -/
def planningRow (i : Issue) (link status : String) : Row :=
  { link := link, rtype := derivedIssueType i, priority := get_issue_priority i,
    status := status, ondeck := ondeckOf (get_issue_priority i) }

/-- `any(next(...) and next(...).state == "closed" for child_num in children)`. -/
def hasClosedChild (all_issues : List Issue) (children : List Nat) : Bool :=
  children.any (fun c =>
    match findIssue all_issues c with
    | some ci => decide (ci.state = "closed")
    | none => false)

/-- The `parent_issues_to_add` dict: every parent present in the combined
list that is open and has at least one closed child in the combined list,
in map-iteration order. -/
def computeToAdd (all_issues : List Issue) (m : List (Nat × List Nat)) : List (Nat × Issue) :=
  m.foldl (fun acc pc =>
    match findIssue all_issues pc.1 with
    | none => acc
    | some parent_issue =>
      if hasClosedChild all_issues pc.2 ∧ parent_issue.state = "open" then
        dUpd pc.1 (fun _ => parent_issue) acc
      else acc) []

/-- Rows for the *closed* children of a synthesized in-progress parent
(the first planning-section loop shows only children with state
`"closed"`; each row's status cell is that child's state). -/
def closedChildRows (repo_name : String) (all_issues : List Issue)
    (m : List (Nat × List Nat)) (parent_num : Nat) : List Row :=
  match dGet m parent_num with
  | none => []
  | some children =>
    children.filterMap (fun child_num =>
      match findIssue all_issues child_num with
      | some ci =>
        if ci.state = "closed" then some (planningRow ci (childLink repo_name ci) ci.state)
        else none
      | none => none)

/-- Rows for *all* locatable children of a regular parent row (second
planning-section loop). -/
def allChildRows (repo_name : String) (all_issues : List Issue)
    (m : List (Nat × List Nat)) (parent_num : Nat) : List Row :=
  match dGet m parent_num with
  | none => []
  | some children =>
    children.filterMap (fun child_num =>
      (findIssue all_issues child_num).map (fun ci => planningRow ci (childLink repo_name ci) ci.state))

/-- First planning-section loop, one `parent_issues_to_add` entry: skip it
when the parent is itself a child, otherwise emit the parent with the
synthesized `"in progress"` status followed by its closed children. -/
def toAddBlock (repo_name : String) (all_issues : List Issue) (m : List (Nat × List Nat))
    (child_issue_nums : Finset Nat) (e : Nat × Issue) : List Row :=
  if e.1 ∈ child_issue_nums then []
  else planningRow e.2 (parentLink repo_name e.2) "in progress" ::
    closedChildRows repo_name all_issues m e.1

/-- Second planning-section loop, one parent issue: skip it entirely when
it was already shown as an in-progress parent, otherwise emit it with its
own state followed by all of its children. -/
def secondLoopBlock (repo_name : String) (all_issues : List Issue) (m : List (Nat × List Nat))
    (to_add : List (Nat × Issue)) (short_issue : Issue) : List Row :=
  if isKey to_add short_issue.number then []
  else planningRow short_issue (parentLink repo_name short_issue) short_issue.state ::
    allChildRows repo_name all_issues m short_issue.number

/-- What `convert_issues_to_planning_report` emits: whether the repository
header was written, whether each section header was written, and the rows
of each section's table in emission order. -/
structure PlanningOutput where
  emitted : Bool
  parentHeader : Bool
  parentRows : List Row
  otherHeader : Bool
  otherRows : List Row
deriving DecidableEq

/-- `all_issues`: every type's list concatenated in dict order
(`for _, issues in issues_map.items(): all_issues.extend(issues)`). -/
def allIssuesOf (issues_map : List (String × List Issue)) : List Issue :=
  issues_map.foldl (fun acc p => acc ++ p.2) []

/-- `convert_issues_to_planning_report` (issues.py lines 196-361), with the
markdown side effects replaced by the returned `PlanningOutput`.  The
`show_parent_child and gh and org` guard is folded into one flag, and the
internal `build_parent_child_map` call uses the Python default
`fetch_parents=False`. -/
def convert_issues_to_planning_report (fetchSub : Nat → List (Option Nat))
    (fetchParent : Nat → Option ParentData) (repo_name : String)
    (issues_map : List (String × List Issue)) (show_parent_child : Bool) : PlanningOutput :=
  let total_issues := (issues_map.map (fun p => p.2.length)).sum
  if total_issues = 0 then ⟨false, false, [], false, []⟩
  else
    let all_issues := allIssuesOf issues_map
    if all_issues.length = 0 then ⟨true, false, [], false, []⟩
    else
      let pcf :=
        if show_parent_child then build_parent_child_map fetchSub fetchParent all_issues false
        else ([], ∅, [])
      let parent_to_children := pcf.1
      let child_issue_nums := pcf.2.1
      let parent_issues_to_add :=
        if show_parent_child then computeToAdd all_issues parent_to_children else []
      let parent_issues := all_issues.filter (fun i => isKey parent_to_children i.number)
      let standalone_issues := all_issues.filter
        (fun i => !isKey parent_to_children i.number && decide (i.number ∉ child_issue_nums))
      let firstRows := parent_issues_to_add.flatMap
        (toAddBlock repo_name all_issues parent_to_children child_issue_nums)
      let secondRows := parent_issues.flatMap
        (secondLoopBlock repo_name all_issues parent_to_children parent_issues_to_add)
      let parentSection := !parent_issues.isEmpty || !parent_issues_to_add.isEmpty
      let otherRows := standalone_issues.map
        (fun i => planningRow i (parentLink repo_name i) i.state)
      ⟨true, parentSection,
       if parentSection then firstRows ++ secondRows else [],
       !standalone_issues.isEmpty,
       if standalone_issues.isEmpty then [] else otherRows⟩

/-- One emitted row of the known-bugs table: `[Issue, Severity, Status]`. -/
structure Row3 where
  link : String
  severity : String
  status : String
deriving DecidableEq

/-- What `convert_issues_to_known_bugs_report` emits. -/
structure KnownBugsOutput where
  emitted : Bool
  rows : List Row3
deriving DecidableEq

/-- `convert_issues_to_known_bugs_report` (issues.py lines 130-193):
operates on the `"bug"` list only, skips entirely when it is empty, and
nests each located child bug under its parent. -/
def convert_issues_to_known_bugs_report (fetchSub : Nat → List (Option Nat))
    (fetchParent : Nat → Option ParentData) (repo_name : String)
    (issues_map : List (String × List Issue)) (show_parent_child : Bool) : KnownBugsOutput :=
  let bugs_list := (dGet issues_map "bug").getD []
  if bugs_list.length = 0 then ⟨false, []⟩
  else
    let pcf :=
      if show_parent_child then build_parent_child_map fetchSub fetchParent bugs_list false
      else ([], ∅, [])
    let parent_to_children := pcf.1
    let child_issue_nums := pcf.2.1
    let rows := bugs_list.flatMap (fun short_issue =>
      if short_issue.number ∈ child_issue_nums then []
      else
        (⟨parentLink repo_name short_issue, get_issue_priority short_issue,
          short_issue.state⟩ : Row3) ::
        (match dGet parent_to_children short_issue.number with
         | none => []
         | some children => children.filterMap (fun child_num =>
             (findIssue bugs_list child_num).map (fun ci =>
               (⟨childLink repo_name ci, get_issue_priority ci, ci.state⟩ : Row3)))))
    ⟨true, rows⟩

/-! ### Summary metrics (create_md_issue_report, issues.py lines 411-606) -/

/-- One metrics bucket: a running total and a per-type count dict. -/
structure Metrics where
  total : Nat
  by_type : List (String × Nat)
deriving DecidableEq

/-- Per-repository metrics: `total_count` and `by_type` accumulated over
the repository's type-grouped issue dict. -/
def repoMetrics (issues_map : List (String × List Issue)) : Metrics :=
  issues_map.foldl
    (fun acc p => ⟨acc.total + p.2.length, dUpd p.1 (fun _ => p.2.length) acc.by_type⟩)
    ⟨0, []⟩

/-- The grouping key for one repository: its product's name when component
grouping is on, the mapping is non-empty and the repository is mapped,
else `"Other"`.  The unused `product_info` component of the Python tuple
is dropped. -/
def componentOf (group_by_component : Bool) (repo_to_product : List (String × String))
    (repo_name : String) : String :=
  if group_by_component ∧ repo_to_product ≠ [] ∧ isKey repo_to_product repo_name then
    (dGet repo_to_product repo_name).getD "Other"
  else "Other"

/-- The bucket-total update of the component rollup:
`metrics_by_component[name]["total"] += total_count` (creating the bucket
with zero counts first when absent). -/
def baseUpd (rm : Metrics) (o : Option Metrics) : Metrics :=
  let m0 := o.getD ⟨0, []⟩
  ⟨m0.total + rm.total, m0.by_type⟩

/-- One per-type count update of the component rollup:
`metrics_by_component[name]["by_type"][t] += count`. -/
def typeUpd (tc : String × Nat) (o : Option Metrics) : Metrics :=
  let m0 := o.getD ⟨0, []⟩
  ⟨m0.total, dUpd tc.1 (fun oc => oc.getD 0 + tc.2) m0.by_type⟩

/-- Fold one repository's metrics into its component bucket. -/
def addToComponent (mc : List (String × Metrics)) (component_name : String)
    (rm : Metrics) : List (String × Metrics) :=
  rm.by_type.foldl (fun acc tc => dUpd component_name (typeUpd tc) acc)
    (dUpd component_name (baseUpd rm) mc)

/-- `metrics_by_repo`: one bucket per repository. -/
def computeMetricsByRepo (all_repos_issues : List (String × List (String × List Issue))) :
    List (String × Metrics) :=
  all_repos_issues.foldl (fun acc p => dUpd p.1 (fun _ => repoMetrics p.2) acc) []

/-- `metrics_by_component`: repository metrics rolled up per component. -/
def computeMetricsByComponent (group_by_component : Bool)
    (repo_to_product : List (String × String))
    (all_repos_issues : List (String × List (String × List Issue))) :
    List (String × Metrics) :=
  all_repos_issues.foldl (fun acc p =>
    addToComponent acc (componentOf group_by_component repo_to_product p.1) (repoMetrics p.2)) []

/-- `for name in sorted(d.keys()): ... d[name]`: since dict keys are
unique, iterating the sorted keys with lookups is iterating the entries
sorted by key. -/
def sortByKey {β : Type} (m : List (String × β)) : List (String × β) :=
  List.insertionSort (fun a b => a.1 ≤ b.1) m

/-- `grand_total`: accumulated over the summary table's bucket iteration. -/
def emittedGrandTotal (m : List (String × Metrics)) : Nat :=
  (sortByKey m).foldl (fun acc p => acc + p.2.total) 0

/-- The grand total the summary-metrics table emits: the component table's
when `group_by_component and metrics_by_component`, else the repository
table's. -/
def summaryGrandTotal (group_by_component : Bool) (repo_to_product : List (String × String))
    (all_repos_issues : List (String × List (String × List Issue))) : Nat :=
  let mbc := computeMetricsByComponent group_by_component repo_to_product all_repos_issues
  if group_by_component ∧ mbc ≠ [] then emittedGrandTotal mbc
  else emittedGrandTotal (computeMetricsByRepo all_repos_issues)

/-! ### Concrete inputs used to instantiate the theorems -/

/-- Planning-view scenario: parent issue 5, open. -/
def ex5 : Issue := ⟨5, "Parent", "u5", "open", ["task"]⟩

/-- Planning-view scenario: child issue 6, closed. -/
def ex6 : Issue := ⟨6, "ChildC", "u6", "closed", ["task"]⟩

/-- Planning-view scenario: child issue 7, open. -/
def ex7 : Issue := ⟨7, "ChildO", "u7", "open", ["task"]⟩

/-- Planning-view scenario: the type-grouped issue dict. -/
def exPlanMap : List (String × List Issue) := [("task", [ex5, ex6, ex7])]

/-- Planning-view scenario: issue 5 reports sub-issues 6 and 7. -/
def exPlanFS : Nat → List (Option Nat) := fun n => if n = 5 then [some 6, some 7] else []

/-- A parent fetch that never finds a parent. -/
def noParents : Nat → Option ParentData := fun _ => none

/-- Self-report scenario: a fetch that lists issue 5 among its own sub-issues. -/
def exSelfFS : Nat → List (Option Nat) := fun n => if n = 5 then [some 5] else []

/-- Self-report scenario: the single input issue. -/
def exSelf : Issue := ⟨5, "self", "u", "open", []⟩

/-- Forward/backward scenario: issue 10 with sub-issue 11. -/
def exA : Issue := ⟨10, "epic", "ua", "open", []⟩

/-- Forward/backward scenario: issue 11, also reporting parent 10. -/
def exB : Issue := ⟨11, "sub", "ub", "open", []⟩

/-- Forward/backward scenario: issue 10 reports sub-issue 11. -/
def exABFS : Nat → List (Option Nat) := fun n => if n = 10 then [some 11] else []

/-- Forward/backward scenario: issue 11 reports parent 10. -/
def exABFP : Nat → Option ParentData := fun n => if n = 11 then some ⟨some 10⟩ else none

/-- Priority scenario: a label that contains `"p."` without starting with it. -/
def exWip : Issue := ⟨1, "t", "u", "open", ["wip.test"]⟩

/-- Priority scenario: the first substring-matching label is `"s.high"`. -/
def exPrio : Issue := ⟨2, "t", "u", "open", ["bug", "s.high", "p.must-have"]⟩

/-- Type scenario: the first recognized type label is `"task"`. -/
def exTyped : Issue := ⟨3, "t", "u", "open", ["nice", "task", "bug"]⟩

/-- Metrics scenario: repository A with 3 bugs, repository B with 2 tasks. -/
def exArr : List (String × List (String × List Issue)) :=
  [("A", [("bug", [⟨1, "b1", "x", "open", ["bug"]⟩, ⟨2, "b2", "x", "open", ["bug"]⟩,
                   ⟨3, "b3", "x", "open", ["bug"]⟩])]),
   ("B", [("task", [⟨4, "t1", "x", "open", ["task"]⟩, ⟨5, "t2", "x", "open", ["task"]⟩])])]

/-- Metrics scenario: both repositories mapped to components. -/
def exRtp : List (String × String) := [("A", "CompX"), ("B", "CompY")]

/-- Determinism scenario: a second sub-issue fetch that differs from
`exPlanFS` only at issue number 99, which is not in the input list. -/
def exPlanFS2 : Nat → List (Option Nat) :=
  fun n => if n = 99 then [some 1] else exPlanFS n

/-! ### Dictionary lemmas -/

theorem dGet_nil {α β : Type} [DecidableEq α] (k : α) : dGet ([] : List (α × β)) k = none := rfl

theorem dGet_cons {α β : Type} [DecidableEq α] (k1 : α) (v1 : β) (rest : List (α × β)) (k : α) :
    dGet ((k1, v1) :: rest) k = if k1 = k then some v1 else dGet rest k := by
  by_cases h : k1 = k
  · simp [dGet, List.find?_cons_of_pos, h]
  · simp [dGet, List.find?_cons_of_neg, h]

theorem mem_dUpd {α β : Type} [DecidableEq α] {k : α} {f : Option β → β}
    {m : List (α × β)} {p : α × β} (h : p ∈ dUpd k f m) :
    p ∈ m ∨ (p.1 = k ∧ (p.2 = f none ∨ ∃ v, (k, v) ∈ m ∧ p.2 = f (some v))) := by
  induction m with
  | nil =>
    simp only [dUpd, List.mem_singleton] at h
    subst h
    exact Or.inr ⟨rfl, Or.inl rfl⟩
  | cons hd tl ih =>
    obtain ⟨k1, v1⟩ := hd
    simp only [dUpd] at h
    by_cases hk : k1 = k
    · subst hk
      simp only [if_pos rfl] at h
      rcases List.mem_cons.mp h with h1 | h1
      · subst h1
        exact Or.inr ⟨rfl, Or.inr ⟨v1, List.mem_cons_self _ _, rfl⟩⟩
      · exact Or.inl (List.mem_cons_of_mem _ h1)
    · simp only [if_neg hk] at h
      rcases List.mem_cons.mp h with h1 | h1
      · exact Or.inl (h1 ▸ List.mem_cons_self _ _)
      · rcases ih h1 with h2 | ⟨h2, h3⟩
        · exact Or.inl (List.mem_cons_of_mem _ h2)
        · refine Or.inr ⟨h2, ?_⟩
          rcases h3 with h3 | ⟨v, hv1, hv2⟩
          · exact Or.inl h3
          · exact Or.inr ⟨v, List.mem_cons_of_mem _ hv1, hv2⟩

theorem dGet_dUpd_self {α β : Type} [DecidableEq α] (k : α) (f : Option β → β)
    (m : List (α × β)) : dGet (dUpd k f m) k = some (f (dGet m k)) := by
  induction m with
  | nil => simp [dUpd, dGet_cons, dGet_nil]
  | cons hd tl ih =>
    obtain ⟨k1, v1⟩ := hd
    by_cases hk : k1 = k
    · subst hk
      simp [dUpd, dGet_cons]
    · simp [dUpd, if_neg hk, dGet_cons, ih]

theorem dGet_dUpd_ne {α β : Type} [DecidableEq α] {k k' : α} (f : Option β → β)
    (m : List (α × β)) (h : k' ≠ k) : dGet (dUpd k f m) k' = dGet m k' := by
  induction m with
  | nil =>
    have hne : ¬k = k' := fun h1 => h (h1 ▸ rfl)
    simp [dUpd, dGet_cons, dGet_nil, hne]
  | cons hd tl ih =>
    obtain ⟨k1, v1⟩ := hd
    by_cases hk : k1 = k
    · subst hk
      have hne : ¬k1 = k' := fun h1 => h (h1 ▸ rfl)
      simp [dUpd, dGet_cons, hne]
    · simp [dUpd, if_neg hk, dGet_cons, ih]

theorem mem_of_dGet {α β : Type} [DecidableEq α] {m : List (α × β)} {k : α} {v : β}
    (h : dGet m k = some v) : (k, v) ∈ m := by
  simp only [dGet, Option.map_eq_some'] at h
  obtain ⟨p, hp, hv⟩ := h
  have h1 := List.find?_some hp
  have h2 := List.mem_of_find?_eq_some hp
  simp only [decide_eq_true_eq] at h1
  have : p = (k, v) := by
    obtain ⟨a, b⟩ := p
    simp only at h1 hv
    simp [h1, hv]
  exact this ▸ h2

theorem isKey_eq_true_iff {α β : Type} [DecidableEq α] {m : List (α × β)} {k : α} :
    isKey m k = true ↔ ∃ v, (k, v) ∈ m := by
  simp only [isKey, List.any_eq_true, decide_eq_true_eq]
  constructor
  · rintro ⟨⟨a, b⟩, hm, hk⟩
    exact ⟨b, hk ▸ hm⟩
  · rintro ⟨v, hv⟩
    exact ⟨(k, v), hv, rfl⟩

theorem isKey_dUpd {α β : Type} [DecidableEq α] {k k' : α} {f : Option β → β}
    {m : List (α × β)} (h : isKey (dUpd k f m) k' = true) :
    k' = k ∨ isKey m k' = true := by
  rcases isKey_eq_true_iff.mp h with ⟨v, hv⟩
  rcases mem_dUpd hv with h1 | ⟨h1, -⟩
  · exact Or.inr (isKey_eq_true_iff.mpr ⟨v, h1⟩)
  · exact Or.inl h1

theorem dUpd_of_isKey_eq_false {α β : Type} [DecidableEq α] {k : α} {m : List (α × β)}
    (f : Option β → β) (h : isKey m k = false) : dUpd k f m = m ++ [(k, f none)] := by
  induction m with
  | nil => simp [dUpd]
  | cons hd tl ih =>
    obtain ⟨k1, v1⟩ := hd
    simp only [isKey, List.any_cons, Bool.or_eq_false_iff, decide_eq_false_iff_not] at h
    simp only [dUpd, if_neg h.1, List.cons_append, List.cons.injEq, true_and]
    exact ih (by simpa [isKey] using h.2)

/-- A fold preserves any invariant its step function preserves over the
list's elements. -/
theorem foldl_inv {σ α : Type} (P : σ → Prop) {f : σ → α → σ} :
    ∀ (l : List α) (s : σ), (∀ s' a, a ∈ l → P s' → P (f s' a)) → P s → P (l.foldl f s) := by
  intro l
  induction l with
  | nil => exact fun s _ hs => hs
  | cons a l ih =>
    intro s h hs
    exact ih (f s a) (fun s' b hb => h s' b (List.mem_cons_of_mem _ hb))
      (h s a (List.mem_cons_self _ _) hs)

/-! ### Hierarchy-resolution lemmas -/

theorem mem_collectChildren {nums : List Nat} {subs : List (Option Nat)} {c : Nat}
    (h : c ∈ collectChildren nums subs) : some c ∈ subs ∧ c ≠ 0 ∧ c ∈ nums := by
  simp only [collectChildren, List.mem_filterMap] at h
  obtain ⟨o, ho, heq⟩ := h
  match o with
  | none => simp at heq
  | some n =>
    simp only at heq
    split at heq
    · next hcond =>
      obtain rfl : n = c := by simpa using heq
      exact ⟨ho, hcond⟩
    · simp at heq

/-- The containment invariant of one resolution state: every number in a
value list of the map is in the child set. -/
def ChildrenSub (m : List (Nat × List Nat)) (cs : Finset Nat) : Prop :=
  ∀ p ∈ m, ∀ c ∈ p.2, c ∈ cs

theorem childrenSub_forwardStep {nums : List Nat} {fetchSub : Nat → List (Option Nat)}
    {acc : List (Nat × List Nat) × Finset Nat} (issue : Issue)
    (h : ChildrenSub acc.1 acc.2) :
    ChildrenSub (forwardStep nums fetchSub acc issue).1 (forwardStep nums fetchSub acc issue).2 := by
  unfold forwardStep
  set children := collectChildren nums (fetchSub issue.number) with hch
  by_cases hc : children = []
  · simpa [hc] using h
  · simp only [if_neg hc]
    intro p hp c hcp
    rcases mem_dUpd hp with h1 | ⟨-, h2⟩
    · exact Finset.mem_union_left _ (h p h1 c hcp)
    · have hpc : p.2 = children := by rcases h2 with h2 | ⟨v, -, h2⟩ <;> exact h2
      rw [hpc] at hcp
      exact Finset.mem_union_right _ (List.mem_toFinset.mpr hcp)

theorem childrenSub_backwardStep {nums : List Nat} {fetchParent : Nat → Option ParentData}
    {acc : List (Nat × List Nat) × Finset Nat × List (Nat × ParentData)} (issue : Issue)
    (h : ChildrenSub acc.1 acc.2.1) :
    ChildrenSub (backwardStep nums fetchParent acc issue).1
      (backwardStep nums fetchParent acc issue).2.1 := by
  unfold backwardStep
  by_cases hk : isKey acc.1 issue.number
  · simpa [hk] using h
  · simp only [hk, Bool.false_eq_true, if_false]
    split
    · exact h
    · split
      · exact h
      · split
        · intro p hp c hcp
          rcases mem_dUpd hp with h1 | ⟨-, h2⟩
          · exact Finset.mem_insert_of_mem (h p h1 c hcp)
          · rcases h2 with h2 | ⟨v, hv, h2⟩
            · rw [h2] at hcp
              simp only [Option.getD_none, List.nil_append, List.mem_singleton] at hcp
              exact hcp ▸ Finset.mem_insert_self _ _
            · rw [h2] at hcp
              simp only [Option.getD_some, List.mem_append, List.mem_singleton] at hcp
              rcases hcp with hcp | hcp
              · exact Finset.mem_insert_of_mem (h _ hv c hcp)
              · exact hcp ▸ Finset.mem_insert_self _ _
        · exact h

theorem build_childrenSub (fetchSub : Nat → List (Option Nat))
    (fetchParent : Nat → Option ParentData) (issues_list : List Issue) (fetch_parents : Bool) :
    ChildrenSub (build_parent_child_map fetchSub fetchParent issues_list fetch_parents).1
      (build_parent_child_map fetchSub fetchParent issues_list fetch_parents).2.1 := by
  unfold build_parent_child_map
  set nums := issues_list.map Issue.number
  have hfwd : ∀ acc : List (Nat × List Nat) × Finset Nat, ChildrenSub acc.1 acc.2 →
      ChildrenSub (issues_list.foldl (forwardStep nums fetchSub) acc).1
        (issues_list.foldl (forwardStep nums fetchSub) acc).2 := by
    intro acc hacc
    exact foldl_inv (fun s : List (Nat × List Nat) × Finset Nat => ChildrenSub s.1 s.2)
      issues_list acc (fun s a _ hs => childrenSub_forwardStep a hs) hacc
  have h0 : ChildrenSub ([] : List (Nat × List Nat)) (∅ : Finset Nat) := by
    intro p hp
    simp at hp
  have h1 := hfwd ([], ∅) h0
  by_cases hb : fetch_parents
  · simp only [hb, if_true]
    exact foldl_inv
      (fun s : List (Nat × List Nat) × Finset Nat × List (Nat × ParentData) =>
        ChildrenSub s.1 s.2.1)
      issues_list _ (fun s a _ hs => childrenSub_backwardStep a hs) h1
  · simpa [hb] using h1

/-- C3. Every issue number occurring in a value list of the
`parent_to_children` map returned by `build_parent_child_map` is also a
member of the child-number set returned alongside it, for every input
list, every fetch behavior, and both values of the `fetch_parents` flag. -/
theorem claim_C3 (fetchSub : Nat → List (Option Nat)) (fetchParent : Nat → Option ParentData)
    (issues_list : List Issue) (fetch_parents : Bool) (p : Nat × List Nat) (c : Nat)
    (hp : p ∈ (build_parent_child_map fetchSub fetchParent issues_list fetch_parents).1)
    (hc : c ∈ p.2) :
    c ∈ (build_parent_child_map fetchSub fetchParent issues_list fetch_parents).2.1 :=
  build_childrenSub fetchSub fetchParent issues_list fetch_parents p hp c hc

/-- Witness for C3 at the concrete forward/backward scenario: child 11 of
parent 10 is in the returned child set. -/
theorem claim_C3_witness :
    (10, [11]) ∈ (build_parent_child_map exABFS exABFP [exA, exB] true).1 ∧
    (11 : Nat) ∈ ([11] : List Nat) ∧
    (11 : Nat) ∈ (build_parent_child_map exABFS exABFP [exA, exB] true).2.1 :=
  ⟨by decide, by decide,
   claim_C3 exABFS exABFP [exA, exB] true (10, [11]) 11 (by decide) (by decide)⟩

/-- The no-self-link invariant of one resolution map: no key occurs in its
own value list. -/
def NoSelfChild (m : List (Nat × List Nat)) : Prop :=
  ∀ p ∈ m, p.1 ∉ p.2

theorem noSelfChild_forwardStep {nums : List Nat} {fetchSub : Nat → List (Option Nat)}
    {acc : List (Nat × List Nat) × Finset Nat} (issue : Issue)
    (hself : some issue.number ∉ fetchSub issue.number)
    (h : NoSelfChild acc.1) :
    NoSelfChild (forwardStep nums fetchSub acc issue).1 := by
  unfold forwardStep
  set children := collectChildren nums (fetchSub issue.number) with hch
  by_cases hc : children = []
  · simpa [hc] using h
  · simp only [if_neg hc]
    intro p hp
    rcases mem_dUpd hp with h1 | ⟨h1, h2⟩
    · exact h p h1
    · have hpc : p.2 = children := by rcases h2 with h2 | ⟨v, -, h2⟩ <;> exact h2
      rw [h1, hpc]
      intro hmem
      exact hself (mem_collectChildren (hch ▸ hmem)).1

theorem noSelfChild_backwardStep {nums : List Nat} {fetchParent : Nat → Option ParentData}
    {acc : List (Nat × List Nat) × Finset Nat × List (Nat × ParentData)} (issue : Issue)
    (hnum : issue.number ∈ nums)
    (h : NoSelfChild acc.1) :
    NoSelfChild (backwardStep nums fetchParent acc issue).1 := by
  unfold backwardStep
  by_cases hk : isKey acc.1 issue.number
  · simpa [hk] using h
  · simp only [hk, Bool.false_eq_true, if_false]
    split
    · exact h
    · split
      · exact h
      · split
        · next hcond =>
          intro p hp
          rcases mem_dUpd hp with h1 | ⟨h1, h2⟩
          · exact h p h1
          · rcases h2 with h2 | ⟨v, hv, h2⟩
            · rw [h1, h2]
              simp only [Option.getD_none, List.nil_append, List.mem_singleton]
              exact fun he => hcond.2 (he.symm ▸ hnum)
            · rw [h1, h2]
              simp only [Option.getD_some, List.mem_append, List.mem_singleton]
              rintro (hmem | hmem)
              · exact h _ hv hmem
              · exact hcond.2 (hmem.symm ▸ hnum)
        · exact h

/-- C4, counterexample: with a fetch that reports issue 5 among its own
sub-issues, the map returned by `build_parent_child_map` records 5 as its
own child, so the claimed invariant fails for that fetch behavior. -/
theorem claim_C4_counterexample :
    (build_parent_child_map exSelfFS noParents [exSelf] false).1 = [(5, [5])] ∧
    dGet (build_parent_child_map exSelfFS noParents [exSelf] false).1 5 = some [5] ∧
    (5 : Nat) ∈ ([5] : List Nat) := by
  refine ⟨?_, ?_, ?_⟩ <;> decide

/-- C4 as amended: provided the sub-issue fetch never reports an issue
among its own sub-issues, no number appears as its own child in the map
returned by `build_parent_child_map` — for every input list, every parent
fetch behavior (including one reporting an issue as its own parent, which
the backward pass already rejects because the issue's own number is in the
input index), and both flag values. -/
theorem claim_C4_amended (fetchSub : Nat → List (Option Nat))
    (fetchParent : Nat → Option ParentData) (issues_list : List Issue) (fetch_parents : Bool)
    (hself : ∀ n, some n ∉ fetchSub n) (p : Nat × List Nat)
    (hp : p ∈ (build_parent_child_map fetchSub fetchParent issues_list fetch_parents).1) :
    p.1 ∉ p.2 := by
  revert p hp
  show NoSelfChild (build_parent_child_map fetchSub fetchParent issues_list fetch_parents).1
  unfold build_parent_child_map
  set nums := issues_list.map Issue.number with hnums
  have h0 : NoSelfChild ([] : List (Nat × List Nat)) := by
    intro p hp
    simp at hp
  have h1 : NoSelfChild ((issues_list.foldl (forwardStep nums fetchSub) ([], ∅)).1) := by
    exact foldl_inv (fun s : List (Nat × List Nat) × Finset Nat => NoSelfChild s.1)
      issues_list ([], ∅) (fun s a _ hs => noSelfChild_forwardStep a (hself a.number) hs) h0
  by_cases hb : fetch_parents
  · simp only [hb, if_true]
    exact foldl_inv
      (fun s : List (Nat × List Nat) × Finset Nat × List (Nat × ParentData) => NoSelfChild s.1)
      issues_list _
      (fun s a ha hs =>
        noSelfChild_backwardStep a (hnums ▸ List.mem_map_of_mem Issue.number ha) hs) h1
  · simpa [hb] using h1

/-- Witness for the amended C4 at the forward/backward scenario: the fetch
there never self-reports, and parent 10's child list indeed avoids 10. -/
theorem claim_C4_witness :
    (10, [11]) ∈ (build_parent_child_map exABFS exABFP [exA, exB] true).1 ∧
    (10 : Nat) ∉ ([11] : List Nat) :=
  ⟨by decide,
   claim_C4_amended exABFS exABFP [exA, exB] true
     (fun n => by
       by_cases h : n = 10
       · subst h
         decide
       · simp [exABFS, h])
     (10, [11]) (by decide)⟩

theorem collectChildren_cons_none (nums : List Nat) (rest : List (Option Nat)) :
    collectChildren nums (none :: rest) = collectChildren nums rest := rfl

theorem collectChildren_cons_some_pos {nums : List Nat} {n : Nat} (rest : List (Option Nat))
    (hg : n ≠ 0 ∧ n ∈ nums) :
    collectChildren nums (some n :: rest) = n :: collectChildren nums rest := by
  simp [collectChildren, List.filterMap_cons, if_pos hg]

theorem collectChildren_cons_some_neg {nums : List Nat} {n : Nat} (rest : List (Option Nat))
    (hg : ¬(n ≠ 0 ∧ n ∈ nums)) :
    collectChildren nums (some n :: rest) = collectChildren nums rest := by
  simp only [collectChildren, List.filterMap_cons]
  rw [if_neg hg]

theorem count_collectChildren {nums : List Nat} (subs : List (Option Nat)) {c : Nat}
    (hc : c ∈ nums) (h0 : c ≠ 0) :
    (collectChildren nums subs).count c = subs.count (some c) := by
  induction subs with
  | nil => rfl
  | cons o rest ih =>
    cases o with
    | none =>
      rw [collectChildren_cons_none, ih, List.count_cons]
      simp
    | some n =>
      by_cases hn : n = c
      · subst hn
        rw [collectChildren_cons_some_pos rest (And.intro h0 hc), List.count_cons,
          List.count_cons, ih]
        simp
      · by_cases hg : n ≠ 0 ∧ n ∈ nums
        · rw [collectChildren_cons_some_pos rest hg, List.count_cons, List.count_cons, ih]
          simp [hn]
        · rw [collectChildren_cons_some_neg rest hg, List.count_cons, ih]
          simp [hn]

/-- Any write the forward pass performs for key `P` writes the same list
`collectChildren nums (fetchSub P)`, so an entry with that value persists. -/
theorem forward_preserve {nums : List Nat} {fetchSub : Nat → List (Option Nat)} {P : Nat} :
    ∀ (issues : List Issue) (acc : List (Nat × List Nat) × Finset Nat),
      dGet acc.1 P = some (collectChildren nums (fetchSub P)) →
      dGet (issues.foldl (forwardStep nums fetchSub) acc).1 P =
        some (collectChildren nums (fetchSub P)) := by
  intro issues
  induction issues with
  | nil => exact fun acc h => h
  | cons i rest ih =>
    intro acc h
    rw [List.foldl_cons]
    apply ih
    unfold forwardStep
    by_cases hc : collectChildren nums (fetchSub i.number) = []
    · simpa [hc] using h
    · simp only [if_neg hc]
      by_cases hi : i.number = P
      · subst hi
        rw [dGet_dUpd_self]
      · rw [dGet_dUpd_ne _ _ (fun he => hi he.symm)]
        exact h

theorem forward_lookup {nums : List Nat} {fetchSub : Nat → List (Option Nat)} {P : Nat} :
    ∀ (issues : List Issue) (acc : List (Nat × List Nat) × Finset Nat),
      P ∈ issues.map Issue.number →
      collectChildren nums (fetchSub P) ≠ [] →
      dGet (issues.foldl (forwardStep nums fetchSub) acc).1 P =
        some (collectChildren nums (fetchSub P)) := by
  intro issues
  induction issues with
  | nil =>
    intro acc hmem
    simp at hmem
  | cons i rest ih =>
    intro acc hmem hne
    simp only [List.map_cons, List.mem_cons] at hmem
    rw [List.foldl_cons]
    by_cases hi : i.number = P
    · apply forward_preserve
      unfold forwardStep
      rw [hi, if_neg hne, dGet_dUpd_self]
    · rcases hmem with hmem | hmem
      · exact absurd hmem.symm hi
      · exact ih _ hmem hne

/-- The backward pass only ever appends under keys outside the input
list's index, so lookups at in-scope keys are unchanged by it. -/
theorem backward_preserve {nums : List Nat} {fetchParent : Nat → Option ParentData} {P : Nat}
    (hP : P ∈ nums) :
    ∀ (issues : List Issue) (acc : List (Nat × List Nat) × Finset Nat × List (Nat × ParentData)),
      dGet (issues.foldl (backwardStep nums fetchParent) acc).1 P = dGet acc.1 P := by
  intro issues
  induction issues with
  | nil => exact fun acc => rfl
  | cons i rest ih =>
    intro acc
    rw [List.foldl_cons, ih]
    unfold backwardStep
    by_cases hk : isKey acc.1 i.number
    · simp [hk]
    · simp only [hk, Bool.false_eq_true, if_false]
      split
      · rfl
      · split
        · rfl
        · split
          · next hcond =>
            exact dGet_dUpd_ne _ _ (fun he => hcond.2 (he ▸ hP))
          · rfl

/-- C2. If the forward pass links child `C` under parent `P` — `P` is in
the input list and the sub-issue fetch for `P` reports `C` (an in-scope,
truthy number) exactly once — then the final map contains `C` in `map[P]`
exactly once, for every parent-fetch behavior (in particular one where `C`
reports `P` as its parent) and both values of the `fetch_parents` flag:
the backward pass takes no action when the reported parent is in the input
list's index. -/
theorem claim_C2 (fetchSub : Nat → List (Option Nat)) (fetchParent : Nat → Option ParentData)
    (issues_list : List Issue) (fetch_parents : Bool) (P C : Nat)
    (hP : P ∈ issues_list.map Issue.number)
    (hC : C ∈ issues_list.map Issue.number)
    (h0 : C ≠ 0)
    (h1 : (fetchSub P).count (some C) = 1) :
    ∃ l, dGet (build_parent_child_map fetchSub fetchParent issues_list fetch_parents).1 P = some l ∧
      l.count C = 1 := by
  set nums := issues_list.map Issue.number with hnums
  have hcc : (collectChildren nums (fetchSub P)).count C = 1 := by
    rw [count_collectChildren _ (hnums ▸ hC) h0]
    exact h1
  have hne : collectChildren nums (fetchSub P) ≠ [] := by
    intro he
    rw [he] at hcc
    simp at hcc
  refine ⟨collectChildren nums (fetchSub P), ?_, hcc⟩
  unfold build_parent_child_map
  by_cases hb : fetch_parents
  · simp only [hb, if_true]
    rw [backward_preserve (hnums ▸ hP)]
    exact forward_lookup issues_list ([], ∅) (hnums ▸ hP) hne
  · simp only [hb, Bool.false_eq_true, if_false]
    exact forward_lookup issues_list ([], ∅) (hnums ▸ hP) hne

/-- Witness for C2 at the spec's scenario: issue 10 has sub-issue 11 and
issue 11 also reports parent 10; with the backward pass enabled the map
still contains 11 under 10 exactly once. -/
theorem claim_C2_witness :
    ∃ l, dGet (build_parent_child_map exABFS exABFP [exA, exB] true).1 10 = some l ∧
      l.count 11 = 1 :=
  claim_C2 exABFS exABFP [exA, exB] true 10 11 (by decide) (by decide) (by decide) (by decide)

theorem build_false_eq (fetchSub : Nat → List (Option Nat))
    (fetchParent fetchParent2 : Nat → Option ParentData) (issues_list : List Issue) :
    build_parent_child_map fetchSub fetchParent issues_list false =
      build_parent_child_map fetchSub fetchParent2 issues_list false := rfl

/-- C10. During report generation `build_parent_child_map` runs with the
Python default `fetch_parents=False`, so the backward pass never runs:
the fetched-parents mapping returned is empty, every key of the hierarchy
map is the number of an issue in the supplied list, and both report
generators are entirely independent of the parent-fetch behavior (no
externally fetched parent can be emitted as a report row). -/
theorem claim_C10 :
    (∀ (fetchSub : Nat → List (Option Nat)) (fetchParent : Nat → Option ParentData)
       (issues_list : List Issue),
       (build_parent_child_map fetchSub fetchParent issues_list false).2.2 = []) ∧
    (∀ (fetchSub : Nat → List (Option Nat)) (fetchParent : Nat → Option ParentData)
       (issues_list : List Issue) (k : Nat),
       isKey (build_parent_child_map fetchSub fetchParent issues_list false).1 k = true →
       k ∈ issues_list.map Issue.number) ∧
    (∀ (fetchSub : Nat → List (Option Nat)) (fp fp2 : Nat → Option ParentData)
       (repo_name : String) (issues_map : List (String × List Issue)) (s : Bool),
       convert_issues_to_planning_report fetchSub fp repo_name issues_map s =
         convert_issues_to_planning_report fetchSub fp2 repo_name issues_map s) ∧
    (∀ (fetchSub : Nat → List (Option Nat)) (fp fp2 : Nat → Option ParentData)
       (repo_name : String) (issues_map : List (String × List Issue)) (s : Bool),
       convert_issues_to_known_bugs_report fetchSub fp repo_name issues_map s =
         convert_issues_to_known_bugs_report fetchSub fp2 repo_name issues_map s) := by
  refine ⟨fun fetchSub fetchParent issues_list => rfl, ?_, ?_, ?_⟩
  · intro fetchSub fetchParent issues_list k hk
    have hstep : ∀ (s : List (Nat × List Nat) × Finset Nat) (a : Issue), a ∈ issues_list →
        (∀ k, isKey s.1 k = true → k ∈ issues_list.map Issue.number) →
        (∀ k, isKey (forwardStep (issues_list.map Issue.number) fetchSub s a).1 k = true →
          k ∈ issues_list.map Issue.number) := by
      intro s a ha hs k hk2
      simp only [forwardStep] at hk2
      split at hk2
      · exact hs k hk2
      · rcases isKey_dUpd hk2 with h1 | h1
        · exact h1 ▸ List.mem_map_of_mem Issue.number ha
        · exact hs k h1
    have hall := foldl_inv
      (fun s : List (Nat × List Nat) × Finset Nat =>
        ∀ k, isKey s.1 k = true → k ∈ issues_list.map Issue.number)
      issues_list ([], ∅) hstep
      (fun k hk2 => by simp [isKey] at hk2)
    exact hall k hk
  · intro fetchSub fp fp2 repo_name issues_map s
    simp only [convert_issues_to_planning_report,
      build_false_eq fetchSub fp fp2 (allIssuesOf issues_map)]
  · intro fetchSub fp fp2 repo_name issues_map s
    simp only [convert_issues_to_known_bugs_report,
      build_false_eq fetchSub fp fp2 ((dGet issues_map "bug").getD [])]

/-- Witness for C10's key-containment part: the only hierarchy key in the
planning scenario, 5, is the number of an input issue. -/
theorem claim_C10_witness :
    isKey (build_parent_child_map exPlanFS noParents [ex5, ex6, ex7] false).1 5 = true ∧
    (5 : Nat) ∈ [ex5, ex6, ex7].map Issue.number :=
  ⟨by decide, claim_C10.2.1 exPlanFS noParents [ex5, ex6, ex7] 5 (by decide)⟩

theorem build_congr {fs fs2 : Nat → List (Option Nat)} {fp fp2 : Nat → Option ParentData}
    (issues_list : List Issue) (fetch_parents : Bool)
    (h1 : ∀ n, fs n = fs2 n) (h2 : ∀ n, fp n = fp2 n) :
    build_parent_child_map fs fp issues_list fetch_parents =
      build_parent_child_map fs2 fp2 issues_list fetch_parents := by
  have e1 : fs = fs2 := funext h1
  have e2 : fp = fp2 := funext h2
  rw [e1, e2]

/-- C8. A failing or malformed fetch never aborts hierarchy resolution:
`get_sub_issues` returns `[]` and `get_parent_issue` returns `None` on a
not-found response, on any non-success status, and on any exception, and
`build_parent_child_map` run against a response assignment in which one
issue's fetch raises computes exactly what it computes when that issue
simply has no sub-issues (respectively no parent), the remaining issues
being resolved unchanged. -/
theorem claim_C8 :
    (get_sub_issues .notFound = [] ∧ (∀ c, get_sub_issues (.otherStatus c) = []) ∧
      get_sub_issues .raised = []) ∧
    (get_parent_issue .notFound = none ∧ (∀ c, get_parent_issue (.otherStatus c) = none) ∧
      get_parent_issue .raised = none) ∧
    (∀ (resp : Nat → ApiResponse (List (Option Nat))) (fp : Nat → Option ParentData)
       (issues_list : List Issue) (j : Nat) (b : Bool),
       build_parent_child_map (fun n => get_sub_issues (if n = j then .raised else resp n))
           fp issues_list b =
         build_parent_child_map (fun n => if n = j then [] else get_sub_issues (resp n))
           fp issues_list b) ∧
    (∀ (fs : Nat → List (Option Nat)) (presp : Nat → ApiResponse ParentData)
       (issues_list : List Issue) (j : Nat) (b : Bool),
       build_parent_child_map fs
           (fun n => get_parent_issue (if n = j then .raised else presp n)) issues_list b =
         build_parent_child_map fs
           (fun n => if n = j then none else get_parent_issue (presp n)) issues_list b) := by
  refine ⟨⟨rfl, fun c => rfl, rfl⟩, ⟨rfl, fun c => rfl, rfl⟩, ?_, ?_⟩
  · intro resp fp issues_list j b
    apply build_congr issues_list b _ (fun n => rfl)
    intro n
    by_cases h : n = j
    · simp [h, get_sub_issues]
    · simp [h]
  · intro fs presp issues_list j b
    apply build_congr issues_list b (fun n => rfl)
    intro n
    by_cases h : n = j
    · simp [h, get_parent_issue]
    · simp [h]

theorem forward_foldl_ext {nums : List Nat} {fs fs2 : Nat → List (Option Nat)} :
    ∀ (issues : List Issue), (∀ i ∈ issues, fs i.number = fs2 i.number) →
      ∀ acc, issues.foldl (forwardStep nums fs) acc = issues.foldl (forwardStep nums fs2) acc := by
  intro issues
  induction issues with
  | nil => exact fun _ _ => rfl
  | cons i rest ih =>
    intro h acc
    rw [List.foldl_cons, List.foldl_cons]
    rw [show forwardStep nums fs acc i = forwardStep nums fs2 acc i from by
      unfold forwardStep
      rw [h i (List.mem_cons_self _ _)]]
    exact ih (fun j hj => h j (List.mem_cons_of_mem _ hj)) _

/-- With `fetch_parents=False` the resolver reads the sub-issue fetch only
at the numbers of the supplied issues and never reads the parent fetch. -/
theorem build_ext_false {fs fs2 : Nat → List (Option Nat)} {fp fp2 : Nat → Option ParentData}
    (issues_list : List Issue) (h : ∀ i ∈ issues_list, fs i.number = fs2 i.number) :
    build_parent_child_map fs fp issues_list false =
      build_parent_child_map fs2 fp2 issues_list false := by
  simp only [build_parent_child_map, Bool.false_eq_true, if_false]
  rw [forward_foldl_ext issues_list h]

theorem mem_allIssuesOf {issues_map : List (String × List Issue)} {p : String × List Issue}
    {x : Issue} (hp : p ∈ issues_map) (hx : x ∈ p.2) : x ∈ allIssuesOf issues_map := by
  have grow : ∀ (l : List (String × List Issue)) (acc : List Issue), x ∈ acc →
      x ∈ l.foldl (fun a q => a ++ q.2) acc := by
    intro l
    induction l with
    | nil => exact fun acc h => h
    | cons q rest ih =>
      intro acc h
      exact ih _ (List.mem_append_left _ h)
  have main : ∀ (l : List (String × List Issue)) (acc : List Issue), p ∈ l →
      x ∈ l.foldl (fun a q => a ++ q.2) acc := by
    intro l
    induction l with
    | nil =>
      intro acc h
      simp at h
    | cons q rest ih =>
      intro acc h
      rcases List.mem_cons.mp h with h1 | h1
      · subst h1
        exact grow rest _ (List.mem_append_right _ hx)
      · exact ih _ h1
  exact main issues_map [] hp

/-- C9. Report generation is a function of its explicit inputs alone: two
runs over the same type-grouped issue dict whose sub-issue fetches agree
on every supplied issue's number (the parent fetch is never consulted)
produce identical planning rows and identical known-bugs rows, in
identical order — the generators consult no other state. -/
theorem claim_C9 (fs fs2 : Nat → List (Option Nat)) (fp fp2 : Nat → Option ParentData)
    (repo_name : String) (issues_map : List (String × List Issue)) (s : Bool)
    (h : ∀ i ∈ allIssuesOf issues_map, fs i.number = fs2 i.number) :
    convert_issues_to_planning_report fs fp repo_name issues_map s =
      convert_issues_to_planning_report fs2 fp2 repo_name issues_map s ∧
    convert_issues_to_known_bugs_report fs fp repo_name issues_map s =
      convert_issues_to_known_bugs_report fs2 fp2 repo_name issues_map s := by
  constructor
  · cases s with
    | false => rfl
    | true =>
      have hb : build_parent_child_map fs fp (allIssuesOf issues_map) false =
          build_parent_child_map fs2 fp2 (allIssuesOf issues_map) false :=
        build_ext_false _ h
      simp only [convert_issues_to_planning_report, hb]
  · cases s with
    | false => rfl
    | true =>
      have hsub : ∀ i ∈ (dGet issues_map "bug").getD [], fs i.number = fs2 i.number := by
        intro i hi
        cases hbl : dGet issues_map "bug" with
        | none =>
          rw [hbl] at hi
          simp at hi
        | some bl =>
          rw [hbl] at hi
          simp only [Option.getD_some] at hi
          exact h i (mem_allIssuesOf (mem_of_dGet hbl) hi)
      have hb : build_parent_child_map fs fp ((dGet issues_map "bug").getD []) false =
          build_parent_child_map fs2 fp2 ((dGet issues_map "bug").getD []) false :=
        build_ext_false _ hsub
      simp only [convert_issues_to_known_bugs_report, hb]

/-- Witness for C9: two sub-issue fetches differing only at issue 99 (not
in the planning scenario's input) generate the same planning report. -/
theorem claim_C9_witness :
    convert_issues_to_planning_report exPlanFS noParents "repo" exPlanMap true =
      convert_issues_to_planning_report exPlanFS2 (fun _ => some ⟨some 1⟩) "repo" exPlanMap true ∧
    convert_issues_to_known_bugs_report exPlanFS noParents "repo" exPlanMap true =
      convert_issues_to_known_bugs_report exPlanFS2 (fun _ => some ⟨some 1⟩) "repo" exPlanMap true :=
  claim_C9 exPlanFS exPlanFS2 noParents (fun _ => some ⟨some 1⟩) "repo" exPlanMap true
    (by decide)

/-- The sum of the bucket totals of a metrics dict. -/
def sumTotals (m : List (String × Metrics)) : Nat :=
  (m.map (fun p => p.2.total)).sum

theorem foldl_add_totals (l : List (String × Metrics)) :
    ∀ n : Nat, l.foldl (fun acc p => acc + p.2.total) n = n + sumTotals l := by
  induction l with
  | nil => intro n; simp [sumTotals]
  | cons p rest ih =>
    intro n
    rw [List.foldl_cons, ih]
    simp [sumTotals, Nat.add_assoc]

theorem emittedGrandTotal_eq (m : List (String × Metrics)) :
    emittedGrandTotal m = sumTotals m := by
  unfold emittedGrandTotal
  rw [foldl_add_totals, Nat.zero_add]
  unfold sumTotals sortByKey
  exact List.Perm.sum_eq (List.Perm.map _ (List.perm_insertionSort _ m))

theorem sumTotals_cons (p : String × Metrics) (rest : List (String × Metrics)) :
    sumTotals (p :: rest) = p.2.total + sumTotals rest := by
  simp [sumTotals]

theorem sumTotals_dUpd_baseUpd (c : String) (rm : Metrics) (m : List (String × Metrics)) :
    sumTotals (dUpd c (baseUpd rm) m) = sumTotals m + rm.total := by
  induction m with
  | nil => simp [dUpd, sumTotals, baseUpd]
  | cons p rest ih =>
    obtain ⟨k1, v1⟩ := p
    by_cases hk : k1 = c
    · subst hk
      have hred : dUpd k1 (baseUpd rm) ((k1, v1) :: rest) = (k1, baseUpd rm (some v1)) :: rest := by
        simp [dUpd]
      rw [hred, sumTotals_cons, sumTotals_cons]
      simp only [baseUpd, Option.getD_some]
      omega
    · simp only [dUpd, if_neg hk, sumTotals_cons, ih]
      omega

theorem sumTotals_dUpd_typeUpd (c : String) (tc : String × Nat) (m : List (String × Metrics)) :
    sumTotals (dUpd c (typeUpd tc) m) = sumTotals m := by
  induction m with
  | nil => simp [dUpd, sumTotals, typeUpd]
  | cons p rest ih =>
    obtain ⟨k1, v1⟩ := p
    by_cases hk : k1 = c
    · subst hk
      have hred : dUpd k1 (typeUpd tc) ((k1, v1) :: rest) = (k1, typeUpd tc (some v1)) :: rest := by
        simp [dUpd]
      rw [hred, sumTotals_cons, sumTotals_cons]
      simp only [typeUpd, Option.getD_some]
    · simp only [dUpd, if_neg hk, sumTotals_cons, ih]

theorem sumTotals_addToComponent (mc : List (String × Metrics)) (c : String) (rm : Metrics) :
    sumTotals (addToComponent mc c rm) = sumTotals mc + rm.total := by
  unfold addToComponent
  have hfold : ∀ (l : List (String × Nat)) (acc : List (String × Metrics)),
      sumTotals (l.foldl (fun a tc => dUpd c (typeUpd tc) a) acc) = sumTotals acc := by
    intro l
    induction l with
    | nil => exact fun acc => rfl
    | cons tc rest ih =>
      intro acc
      rw [List.foldl_cons, ih, sumTotals_dUpd_typeUpd]
  rw [hfold, sumTotals_dUpd_baseUpd]

theorem sumTotals_computeMetricsByComponent (group_by_component : Bool)
    (repo_to_product : List (String × String))
    (all_repos_issues : List (String × List (String × List Issue))) :
    sumTotals (computeMetricsByComponent group_by_component repo_to_product all_repos_issues) =
      (all_repos_issues.map (fun p => (repoMetrics p.2).total)).sum := by
  unfold computeMetricsByComponent
  have hfold : ∀ (l : List (String × List (String × List Issue)))
      (acc : List (String × Metrics)),
      sumTotals (l.foldl (fun a p =>
        addToComponent a (componentOf group_by_component repo_to_product p.1) (repoMetrics p.2))
        acc) =
      sumTotals acc + (l.map (fun p => (repoMetrics p.2).total)).sum := by
    intro l
    induction l with
    | nil => intro acc; simp
    | cons p rest ih =>
      intro acc
      rw [List.foldl_cons, ih, sumTotals_addToComponent]
      simp [Nat.add_assoc]
  rw [hfold]
  simp [sumTotals]

theorem isKey_dUpd_of_ne {α β : Type} [DecidableEq α] {k q : α} (f : Option β → β)
    (m : List (α × β)) (hne : q ≠ k) (hq : isKey m q = false) :
    isKey (dUpd k f m) q = false := by
  by_cases h : isKey (dUpd k f m) q = true
  · rcases isKey_dUpd h with h1 | h1
    · exact absurd h1 hne
    · rw [h1] at hq
      cases hq
  · simpa using h

theorem sumTotals_computeMetricsByRepo
    (all_repos_issues : List (String × List (String × List Issue)))
    (hnd : (all_repos_issues.map Prod.fst).Nodup) :
    sumTotals (computeMetricsByRepo all_repos_issues) =
      (all_repos_issues.map (fun p => (repoMetrics p.2).total)).sum := by
  unfold computeMetricsByRepo
  have hfold : ∀ (l : List (String × List (String × List Issue)))
      (acc : List (String × Metrics)),
      (l.map Prod.fst).Nodup →
      (∀ p ∈ l, isKey acc p.1 = false) →
      sumTotals (l.foldl (fun a p => dUpd p.1 (fun _ => repoMetrics p.2) a) acc) =
        sumTotals acc + (l.map (fun p => (repoMetrics p.2).total)).sum := by
    intro l
    induction l with
    | nil => intro acc _ _; simp
    | cons p rest ih =>
      intro acc hnd2 habs
      rw [List.foldl_cons]
      have hps : isKey acc p.1 = false := habs p (List.mem_cons_self _ _)
      have hupd : dUpd p.1 (fun _ => repoMetrics p.2) acc = acc ++ [(p.1, repoMetrics p.2)] :=
        dUpd_of_isKey_eq_false _ hps
      rw [List.map_cons, List.nodup_cons] at hnd2
      have hnd3 : (rest.map Prod.fst).Nodup := hnd2.2
      have hne : ∀ q ∈ rest, q.1 ≠ p.1 := by
        intro q hq he
        exact hnd2.1 (he ▸ List.mem_map_of_mem Prod.fst hq)
      have habs2 : ∀ q ∈ rest, isKey (dUpd p.1 (fun _ => repoMetrics p.2) acc) q.1 = false :=
        fun q hq => isKey_dUpd_of_ne _ acc (hne q hq) (habs q (List.mem_cons_of_mem _ hq))
      rw [ih _ hnd3 habs2, hupd]
      simp [sumTotals, Nat.add_assoc]
  have := hfold all_repos_issues [] hnd (fun p _ => rfl)
  simpa [sumTotals] using this

/-- C5. The grand total emitted in the summary-metrics table equals the
sum of all per-repository issue totals, identically in component-grouped
mode and in ungrouped mode, for any repository/type grouping whose
repository keys are distinct (they are dict keys in the source). -/
theorem claim_C5 (group_by_component : Bool) (repo_to_product : List (String × String))
    (all_repos_issues : List (String × List (String × List Issue)))
    (hnd : (all_repos_issues.map Prod.fst).Nodup) :
    summaryGrandTotal group_by_component repo_to_product all_repos_issues =
      (all_repos_issues.map (fun p => (repoMetrics p.2).total)).sum := by
  simp only [summaryGrandTotal]
  split
  · rw [emittedGrandTotal_eq, sumTotals_computeMetricsByComponent]
  · rw [emittedGrandTotal_eq, sumTotals_computeMetricsByRepo _ hnd]

/-- Witness for C5 at the spec's scenario (repo A: 3 bugs, repo B: 2
tasks): the grand total is 5 in grouped and in ungrouped mode. -/
theorem claim_C5_witness :
    summaryGrandTotal true exRtp exArr = 5 ∧ summaryGrandTotal false exRtp exArr = 5 :=
  ⟨(claim_C5 true exRtp exArr (by decide)).trans (by decide),
   (claim_C5 false exRtp exArr (by decide)).trans (by decide)⟩

theorem find?_first {α : Type} (p : α → Bool) :
    ∀ (pre : List α) (t : α) (post : List α), p t = true → (∀ l ∈ pre, p l = false) →
      List.find? p (pre ++ t :: post) = some t := by
  intro pre
  induction pre with
  | nil =>
    intro t post ht _
    simp [List.find?_cons_of_pos, ht]
  | cons a rest ih =>
    intro t post ht hpre
    rw [List.cons_append, List.find?_cons_of_neg, ih t post ht
      (fun l hl => hpre l (List.mem_cons_of_mem _ hl))]
    simp [hpre a (List.mem_cons_self _ _)]

/-- C6, counterexample: the label `"wip.test"` contains `"p."` without
beginning with `"p."` or `"s."`, and `get_issue_priority` returns it as
the priority — the source's test is substring containment, not the spec's
`p.*`/`s.*` prefix pattern, under which this issue's priority would be
`"unknown"`. -/
theorem claim_C6_counterexample :
    get_issue_priority exWip = "wip.test" ∧
    matchesPriorityPattern "wip.test" = false ∧
    "wip.test" ≠ "unknown" ∧
    "wip.test" ∈ exWip.labels := by
  refine ⟨?_, ?_, ?_, ?_⟩ <;> decide

/-- C6 as amended: `get_issue_priority` returns a label name as the
issue's priority exactly when that label *contains* `"p."` or `"s."` as a
substring, taking the first such label in the issue's label order, and
returns the sentinel `"unknown"` when no label of the issue contains
either substring. -/
theorem claim_C6_amended (issue : Issue) :
    (get_issue_priority issue = "unknown" ∨
      (get_issue_priority issue ∈ issue.labels ∧ prioLabel (get_issue_priority issue) = true)) ∧
    ((∀ l ∈ issue.labels, prioLabel l = false) → get_issue_priority issue = "unknown") ∧
    (∀ pre t post, issue.labels = pre ++ t :: post → prioLabel t = true →
      (∀ l ∈ pre, prioLabel l = false) → get_issue_priority issue = t) := by
  refine ⟨?_, ?_, ?_⟩
  · unfold get_issue_priority
    cases hf : issue.labels.find? prioLabel with
    | none => exact Or.inl rfl
    | some l => exact Or.inr ⟨List.mem_of_find?_eq_some hf, List.find?_some hf⟩
  · intro hall
    unfold get_issue_priority
    rw [List.find?_eq_none.mpr (fun x hx => by simp [hall x hx])]
  · intro pre t post hsplit ht hpre
    unfold get_issue_priority
    rw [hsplit, find?_first prioLabel pre t post ht hpre]

/-- Witness for the amended C6: the first substring-matching label of the
concrete issue is `"s.high"`. -/
theorem claim_C6_witness :
    get_issue_priority exPrio = "s.high" :=
  (claim_C6_amended exPrio).2.2 ["bug"] "s.high" ["p.must-have"] (by decide) (by decide)
    (by decide)

/-- C7. The derived issue type (the `get_issue_type(issue) or "unknown"`
value every report uses) is always a member of
`{bug, enhancement, requirement, theme, task, unknown}`: `get_issue_type`
returns the first label in the issue's label order whose name is in the
fixed `ISSUE_TYPES` list — first match wins when several type labels are
present — and yields the sentinel `"unknown"` when no label matches. -/
theorem claim_C7 (issue : Issue) :
    (derivedIssueType issue = "unknown" ∨ derivedIssueType issue ∈ ISSUE_TYPES) ∧
    ((∀ l ∈ issue.labels, l ∉ ISSUE_TYPES) →
      get_issue_type issue = none ∧ derivedIssueType issue = "unknown") ∧
    (∀ pre t post, issue.labels = pre ++ t :: post → t ∈ ISSUE_TYPES →
      (∀ l ∈ pre, l ∉ ISSUE_TYPES) →
      get_issue_type issue = some t ∧ derivedIssueType issue = t) := by
  refine ⟨?_, ?_, ?_⟩
  · unfold derivedIssueType get_issue_type
    cases hf : issue.labels.find? (fun l => decide (l ∈ ISSUE_TYPES)) with
    | none => exact Or.inl rfl
    | some l =>
      refine Or.inr ?_
      have := List.find?_some hf
      simpa using this
  · intro hall
    have hnone : get_issue_type issue = none := by
      unfold get_issue_type
      exact List.find?_eq_none.mpr (fun x hx => by simp [hall x hx])
    exact ⟨hnone, by unfold derivedIssueType; rw [hnone]; rfl⟩
  · intro pre t post hsplit ht hpre
    have hsome : get_issue_type issue = some t := by
      unfold get_issue_type
      rw [hsplit]
      exact find?_first _ pre t post (by simpa using ht) (fun l hl => by simp [hpre l hl])
    exact ⟨hsome, by unfold derivedIssueType; rw [hsome]; rfl⟩

/-- Witness for C7: the first recognized type label of the concrete issue
is `"task"`, and it is one of the five type names. -/
theorem claim_C7_witness :
    get_issue_type exTyped = some "task" ∧ derivedIssueType exTyped = "task" :=
  (claim_C7 exTyped).2.2 ["nice"] "task" ["bug"] (by decide) (by decide) (by decide)

theorem length_allIssuesOf (issues_map : List (String × List Issue)) :
    (allIssuesOf issues_map).length = (issues_map.map (fun p => p.2.length)).sum := by
  have hfold : ∀ (l : List (String × List Issue)) (acc : List Issue),
      (l.foldl (fun a p => a ++ p.2) acc).length =
        acc.length + (l.map (fun p => p.2.length)).sum := by
    intro l
    induction l with
    | nil => intro acc; simp
    | cons p rest ih =>
      intro acc
      rw [List.foldl_cons, ih]
      simp [Nat.add_assoc]
  simpa using hfold issues_map []

theorem computeToAdd_state_open {all_issues : List Issue} {m : List (Nat × List Nat)}
    {e : Nat × Issue} (he : e ∈ computeToAdd all_issues m) : e.2.state = "open" := by
  unfold computeToAdd at he
  have hstep : ∀ (acc : List (Nat × Issue)) (pc : Nat × List Nat), pc ∈ m →
      (∀ q ∈ acc, q.2.state = "open") →
      (∀ q ∈ (match findIssue all_issues pc.1 with
              | none => acc
              | some parent_issue =>
                if hasClosedChild all_issues pc.2 ∧ parent_issue.state = "open" then
                  dUpd pc.1 (fun _ => parent_issue) acc
                else acc), q.2.state = "open") := by
    intro acc pc _ hacc q hq
    split at hq
    · exact hacc q hq
    · next parent_issue _ =>
      split at hq
      · next hcond =>
        rcases mem_dUpd hq with h1 | ⟨-, h2⟩
        · exact hacc q h1
        · have : q.2 = parent_issue := by rcases h2 with h2 | ⟨v, -, h2⟩ <;> exact h2
          rw [this]
          exact hcond.2
      · exact hacc q hq
  exact foldl_inv (fun acc : List (Nat × Issue) => ∀ q ∈ acc, q.2.state = "open") m []
    hstep (fun q hq => absurd hq (List.not_mem_nil q)) e he

theorem childLink_ne_parentLink (r1 r2 : String) (i j : Issue) :
    childLink r1 i ≠ parentLink r2 j := by
  intro h
  have hd := congrArg String.data h
  rw [childLink, parentLink, String.data_append, String.data_append] at hd
  have h1 : "  ↳ ".data = ' ' :: ' ' :: '↳' :: ' ' :: [] := rfl
  have h2 : "[".data = '[' :: [] := rfl
  rw [h1, h2] at hd
  simp only [List.cons_append, List.nil_append] at hd
  injection hd with h3 _
  exact absurd h3 (by decide)

theorem mem_closedChildRows_status {repo_name : String} {all_issues : List Issue}
    {m : List (Nat × List Nat)} {parent_num : Nat} {r : Row}
    (hr : r ∈ closedChildRows repo_name all_issues m parent_num) : r.status = "closed" := by
  unfold closedChildRows at hr
  split at hr
  · exact absurd hr (List.not_mem_nil r)
  · rcases List.mem_filterMap.mp hr with ⟨cn, -, hcn⟩
    split at hcn
    · next ci _ =>
      split at hcn
      · next hclosed =>
        obtain rfl : planningRow ci (childLink repo_name ci) ci.state = r := by
          simpa using hcn
        exact hclosed
      · simp at hcn
    · simp at hcn

/-- The planning generator's Parent-Issues table is the first loop's rows
(over `parent_issues_to_add`) followed by the second loop's rows (over the
parent issues), once the repository is non-empty and the synthesized-
parent dict is non-empty. -/
theorem planning_parentRows_eq (fetchSub : Nat → List (Option Nat))
    (fetchParent : Nat → Option ParentData) (repo_name : String)
    (issues_map : List (String × List Issue))
    (h0 : (issues_map.map (fun p => p.2.length)).sum ≠ 0)
    (hta : computeToAdd (allIssuesOf issues_map)
      (build_parent_child_map fetchSub fetchParent (allIssuesOf issues_map) false).1 ≠ []) :
    (convert_issues_to_planning_report fetchSub fetchParent repo_name issues_map true).parentRows =
      (computeToAdd (allIssuesOf issues_map)
        (build_parent_child_map fetchSub fetchParent (allIssuesOf issues_map) false).1).flatMap
        (toAddBlock repo_name (allIssuesOf issues_map)
          (build_parent_child_map fetchSub fetchParent (allIssuesOf issues_map) false).1
          (build_parent_child_map fetchSub fetchParent (allIssuesOf issues_map) false).2.1) ++
      ((allIssuesOf issues_map).filter
        (fun i => isKey
          (build_parent_child_map fetchSub fetchParent (allIssuesOf issues_map) false).1
          i.number)).flatMap
        (secondLoopBlock repo_name (allIssuesOf issues_map)
          (build_parent_child_map fetchSub fetchParent (allIssuesOf issues_map) false).1
          (computeToAdd (allIssuesOf issues_map)
            (build_parent_child_map fetchSub fetchParent (allIssuesOf issues_map) false).1)) := by
  have hlen : ¬(allIssuesOf issues_map).length = 0 := by
    rw [length_allIssuesOf]
    exact h0
  have hne : (computeToAdd (allIssuesOf issues_map)
      (build_parent_child_map fetchSub fetchParent (allIssuesOf issues_map) false).1).isEmpty
      = false := by
    cases hc : computeToAdd (allIssuesOf issues_map)
        (build_parent_child_map fetchSub fetchParent (allIssuesOf issues_map) false).1 with
    | nil => exact absurd hc hta
    | cons a l => rfl
  simp [convert_issues_to_planning_report, h0, hlen, hne]

/-- C1, counterexample at the spec's own scenario (parent 5 open, child 6
closed, child 7 open): row 5 is synthesized as `"in progress"` with only
closed child 6 nested under it, but open child 7 appears **nowhere** — the
regular parent-issue pass skips parents already shown as in-progress, so
it never emits parent 5's open children, contradicting the claim that
child 7 still appears nested under the parent in that pass. -/
theorem claim_C1_counterexample :
    convert_issues_to_planning_report exPlanFS noParents "repo" exPlanMap true =
      ⟨true, true,
       [⟨"[repo#5](u5) - Parent", "task", "unknown", "in progress", ""⟩,
        ⟨"  ↳ [repo#6](u6) - ChildC", "task", "unknown", "closed", ""⟩],
       false, []⟩ ∧
    "  ↳ [repo#7](u7) - ChildO" ∉
      ((convert_issues_to_planning_report exPlanFS noParents "repo" exPlanMap true).parentRows.map
        Row.link) ∧
    (convert_issues_to_planning_report exPlanFS noParents "repo" exPlanMap true).otherRows
      = [] := by
  refine ⟨?_, ?_, ?_⟩ <;> decide

/-- C1 as amended.  For every parent issue that is open and has at least
one closed child in the combined issue list (an entry of
`parent_issues_to_add`) and that is not itself a child: the emitted parent
row's displayed status is `"in progress"` while the issue's internal state
stays `"open"`; only its closed children are nested directly under that
synthesized row (an open child's row is not in the block); and — correcting
the claim — its open children do **not** appear under the parent in the
regular parent-issue listing pass, because that pass skips the parent
entirely, so no row is duplicated across the two passes. -/
theorem claim_C1_amended (fetchSub : Nat → List (Option Nat))
    (fetchParent : Nat → Option ParentData) (repo_name : String)
    (issues_map : List (String × List Issue)) (pn : Nat) (pIssue : Issue)
    (c : Nat) (cIssue : Issue)
    (h0 : (issues_map.map (fun p => p.2.length)).sum ≠ 0)
    (h1 : (pn, pIssue) ∈ computeToAdd (allIssuesOf issues_map)
      (build_parent_child_map fetchSub fetchParent (allIssuesOf issues_map) false).1)
    (h2 : pn ∉ (build_parent_child_map fetchSub fetchParent (allIssuesOf issues_map) false).2.1)
    (h3 : c ∈ (dGet
      (build_parent_child_map fetchSub fetchParent (allIssuesOf issues_map) false).1 pn).getD [])
    (h4 : findIssue (allIssuesOf issues_map) c = some cIssue)
    (h5 : cIssue.state ≠ "closed") :
    pIssue.state = "open" ∧
    (∃ pre post,
      (convert_issues_to_planning_report fetchSub fetchParent repo_name issues_map
        true).parentRows =
        pre ++ (planningRow pIssue (parentLink repo_name pIssue) "in progress" ::
          closedChildRows repo_name (allIssuesOf issues_map)
            (build_parent_child_map fetchSub fetchParent (allIssuesOf issues_map) false).1 pn)
          ++ post) ∧
    (planningRow cIssue (childLink repo_name cIssue) cIssue.state ∉
      planningRow pIssue (parentLink repo_name pIssue) "in progress" ::
        closedChildRows repo_name (allIssuesOf issues_map)
          (build_parent_child_map fetchSub fetchParent (allIssuesOf issues_map) false).1 pn) ∧
    (∀ i : Issue, i.number = pn →
      secondLoopBlock repo_name (allIssuesOf issues_map)
        (build_parent_child_map fetchSub fetchParent (allIssuesOf issues_map) false).1
        (computeToAdd (allIssuesOf issues_map)
          (build_parent_child_map fetchSub fetchParent (allIssuesOf issues_map) false).1)
        i = []) := by
  have hkey : isKey (computeToAdd (allIssuesOf issues_map)
      (build_parent_child_map fetchSub fetchParent (allIssuesOf issues_map) false).1) pn
      = true :=
    isKey_eq_true_iff.mpr ⟨pIssue, h1⟩
  refine ⟨computeToAdd_state_open h1, ?_, ?_, ?_⟩
  · obtain ⟨ta1, ta2, hsplit⟩ := List.append_of_mem h1
    refine ⟨ta1.flatMap (toAddBlock repo_name (allIssuesOf issues_map)
        (build_parent_child_map fetchSub fetchParent (allIssuesOf issues_map) false).1
        (build_parent_child_map fetchSub fetchParent (allIssuesOf issues_map) false).2.1),
      ta2.flatMap (toAddBlock repo_name (allIssuesOf issues_map)
        (build_parent_child_map fetchSub fetchParent (allIssuesOf issues_map) false).1
        (build_parent_child_map fetchSub fetchParent (allIssuesOf issues_map) false).2.1) ++
      ((allIssuesOf issues_map).filter
        (fun i => isKey
          (build_parent_child_map fetchSub fetchParent (allIssuesOf issues_map) false).1
          i.number)).flatMap
        (secondLoopBlock repo_name (allIssuesOf issues_map)
          (build_parent_child_map fetchSub fetchParent (allIssuesOf issues_map) false).1
          (computeToAdd (allIssuesOf issues_map)
            (build_parent_child_map fetchSub fetchParent (allIssuesOf issues_map) false).1)), ?_⟩
    rw [planning_parentRows_eq fetchSub fetchParent repo_name issues_map h0
      (hsplit ▸ List.append_ne_nil_of_right_ne_nil _ (List.cons_ne_nil _ _)), hsplit,
      List.flatMap_append, List.flatMap_cons]
    rw [show toAddBlock repo_name (allIssuesOf issues_map)
        (build_parent_child_map fetchSub fetchParent (allIssuesOf issues_map) false).1
        (build_parent_child_map fetchSub fetchParent (allIssuesOf issues_map) false).2.1
        (pn, pIssue) =
      planningRow pIssue (parentLink repo_name pIssue) "in progress" ::
        closedChildRows repo_name (allIssuesOf issues_map)
          (build_parent_child_map fetchSub fetchParent (allIssuesOf issues_map) false).1 pn
      from by
        unfold toAddBlock
        rw [if_neg h2]]
    simp [List.append_assoc]
  · intro hmem
    rcases List.mem_cons.mp hmem with heq | htail
    · have hlink := congrArg Row.link heq
      simp only [planningRow] at hlink
      exact childLink_ne_parentLink repo_name repo_name cIssue pIssue hlink
    · have := mem_closedChildRows_status htail
      simp only [planningRow] at this
      exact h5 this
  · intro i hi
    unfold secondLoopBlock
    rw [hi, if_pos hkey]

/-- Witness for the amended C1 at the 5/6/7 scenario: parent 5's state is
`"open"`, open child 7's row is not in the synthesized block, and the
regular pass contributes nothing for issue 5. -/
theorem claim_C1_witness :
    ex5.state = "open" ∧
    (planningRow ex7 (childLink "repo" ex7) ex7.state ∉
      planningRow ex5 (parentLink "repo" ex5) "in progress" ::
        closedChildRows "repo" (allIssuesOf exPlanMap)
          (build_parent_child_map exPlanFS noParents (allIssuesOf exPlanMap) false).1 5) ∧
    secondLoopBlock "repo" (allIssuesOf exPlanMap)
      (build_parent_child_map exPlanFS noParents (allIssuesOf exPlanMap) false).1
      (computeToAdd (allIssuesOf exPlanMap)
        (build_parent_child_map exPlanFS noParents (allIssuesOf exPlanMap) false).1)
      ex5 = [] :=
  ⟨(claim_C1_amended exPlanFS noParents "repo" exPlanMap 5 ex5 7 ex7 (by decide) (by decide)
      (by decide) (by decide) (by decide) (by decide)).1,
   (claim_C1_amended exPlanFS noParents "repo" exPlanMap 5 ex5 7 ex7 (by decide) (by decide)
      (by decide) (by decide) (by decide) (by decide)).2.2.1,
   (claim_C1_amended exPlanFS noParents "repo" exPlanMap 5 ex5 7 ex7 (by decide) (by decide)
      (by decide) (by decide) (by decide) (by decide)).2.2.2 ex5 rfl⟩
